import Mathlib

/-!
Verification development for the partitioned heat-conduction tutorial
(`HT/partitioned-heat/fenics-fenics/heat.py`): a shallow embedding in Lean 4
of the control discipline layered on top of the external PDE solver (FEniCS)
and coupling library (preCICE).  Machine floats of the source are modelled as
exact rationals; the external collaborators (mesh assembly, linear solve,
`precice.advance`) are modelled as oracle inputs to the control-layer
functions, which are translated line by line from the source.
-/

set_option autoImplicit false

namespace Heat

/-- `class ProblemType(Enum)` (heat.py lines 39-44). -/
inductive ProblemType where
  | DIRICHLET
  | NEUMANN
  deriving DecidableEq, Repr

/-! ### Module-level geometry constants (heat.py lines 133-138) -/

/-- `alpha = 3` (line 133). -/
def alpha : ℚ := 3

/-- `beta = 1.3` (line 134). -/
def beta : ℚ := 13/10

/-- `gamma = 0.0` (line 135). -/
def gamma : ℚ := 0

/-- `y_bottom = 0` (line 136). -/
def y_bottom : ℚ := 0

/-- `y_top = 1` (line 136). -/
def y_top : ℚ := 1

/-- `x_left = 0` (line 137). -/
def x_left : ℚ := 0

/-- `x_right = 2` (line 137). -/
def x_right : ℚ := 2

/-- `x_coupling = 1.5` (line 138): x coordinate of the coupling interface. -/
def x_coupling : ℚ := 3/2

/-! ### Geometry predicates (heat.py lines 47-66) -/

/-- The tolerance `tol = 1E-14` used in both `inside` methods (lines 53, 62). -/
def geom_tol : ℚ := 1/10^14

/-- FEniCS `near(x, x0, eps)`: true iff `x0 - eps <= x <= x0 + eps`. -/
def fenics_near (x x0 eps : ℚ) : Bool := |x - x0| ≤ eps

/-- `CouplingBoundary.inside(x, on_boundary)` (heat.py lines 61-66). -/
def couplingBoundary_inside (x : ℚ × ℚ) (on_boundary : Bool) : Bool :=
  if on_boundary && fenics_near x.1 x_coupling geom_tol
      && !(fenics_near x.2 y_bottom geom_tol) && !(fenics_near x.2 y_top geom_tol) then
    true
  else
    false

/-- `ComplementaryBoundary.inside(x, on_boundary)` with
`self.complement = CouplingBoundary()` as constructed at heat.py line 158
(lines 52-57). -/
def complementaryBoundary_inside (x : ℚ × ℚ) (on_boundary : Bool) : Bool :=
  if on_boundary && !(couplingBoundary_inside x on_boundary) then
    true
  else
    false

/-! ### Flux evaluator (heat.py lines 69-87)

`fluxes_from_temperature_full_domain(F, V)` first calls the external FEniCS
assemblies `assemble(F)` and `assemble(v*ds)`; those two vectors are the
inputs of the embedded loop below.  The Python `assert` is modelled as the
`Except.error` branch (a fatal `AssertionError`). -/

/-- The assertion tolerance `10**-10` of heat.py line 85. -/
def flux_assert_tol : ℚ := 1/10^10

/-- The per-index loop of `fluxes_from_temperature_full_domain`
(heat.py lines 81-86): for each `i`, if `area[i] != 0` the entry is
`fluxes_vector[i] / area[i]`, otherwise the code asserts
`abs(fluxes_vector[i]) < 10**-10` and passes the raw entry through. -/
def flux_loop : List ℚ → List ℚ → Except String (List ℚ)
  | fv :: fvs, a :: as_ =>
    if a ≠ 0 then
      match flux_loop fvs as_ with
      | Except.ok rest => Except.ok (fv / a :: rest)
      | Except.error e => Except.error e
    else if |fv| < flux_assert_tol then
      match flux_loop fvs as_ with
      | Except.ok rest => Except.ok (fv :: rest)
      | Except.error e => Except.error e
    else
      Except.error "AssertionError"
  | _, _ => Except.ok []

/-- `fluxes_from_temperature_full_domain(F, V)` (heat.py lines 69-87), with
the external assembly results `fluxes_vector = assemble(F)` and
`area = assemble(v*ds).get_local()` supplied as inputs. -/
def fluxes_from_temperature_full_domain (fluxes_vector area : List ℚ) :
    Except String (List ℚ) :=
  flux_loop fluxes_vector area

/-- Decidable scan for an index that trips the assertion of heat.py
line 85: a zero `area` entry whose raw residual is not below `10**-10`. -/
def hasAssertFailure (fluxes_vector area : List ℚ) : Bool :=
  (fluxes_vector.zip area).any fun pr =>
    decide (pr.2 = 0) && decide (flux_assert_tol ≤ |pr.1|)

/-- The per-index values the flux loop produces when no assertion fires:
`fluxes_vector[i] / area[i]` where `area[i] != 0`, the raw
`fluxes_vector[i]` otherwise. -/
def flux_values (fluxes_vector area : List ℚ) : List ℚ :=
  (fluxes_vector.zip area).map fun pr => if pr.2 ≠ 0 then pr.1 / pr.2 else pr.1

/-! ### Role resolution and configuration (heat.py lines 90-131) -/

/-- The role-flag validation block (heat.py lines 100-107): `problem` is
bound from the flags, then both-set and neither-set raise an `Exception`. -/
def resolveProblem (dirichlet neumann : Bool) : Except String ProblemType :=
  if dirichlet && neumann then
    Except.error
      "you can only choose either a dirichlet problem (option -d) or a neumann problem (option -n)"
  else if !(dirichlet || neumann) then
    Except.error
      "you have to choose either a dirichlet problem (option -d) or a neumann problem (option -n)"
  else if neumann then
    Except.ok ProblemType.NEUMANN
  else
    Except.ok ProblemType.DIRICHLET

/-- `nx = 10` (heat.py line 111), before the Dirichlet branch triples it. -/
def nx : ℕ := 10

/-- `ny = 10` (heat.py line 112). -/
def ny : ℕ := 10

/-- `error_tol = 10 ** -12` (heat.py line 114). -/
def error_tol : ℚ := 1/10^12

/-- The tag `wr_tag` (heat.py line 116): the literal WR followed by the two
waveform orders. -/
def wr_tag (wr1 wr2 : ℤ) : String := "WR" ++ toString wr1 ++ toString wr2

/-- The tag `window_size` (heat.py line 117), the literal dT followed by the
window size; `dT_repr` is the Python
decimal rendering of the `--window-size` float (e.g. `"1.0"`). -/
def window_size_tag (dT_repr : String) : String := "dT" ++ dT_repr

/-- `configs_path = os.path.join("experiments", wr_tag, window_size,
coupling_scheme)` (heat.py line 122), with POSIX path joining. -/
def configs_path (wr1 wr2 : ℤ) (dT_repr scheme : String) : String :=
  "experiments/" ++ wr_tag wr1 wr2 ++ "/" ++ window_size_tag dT_repr ++ "/" ++ scheme

/-- `adapter_config_filename` per role (heat.py lines 124-131): the
own adapter-config path of the participant. -/
def adapter_config_filename (p : ProblemType) (wr1 wr2 : ℤ) (dT_repr scheme : String) :
    String :=
  match p with
  | ProblemType.DIRICHLET =>
      configs_path wr1 wr2 dT_repr scheme ++ "/precice-adapter-config-D.json"
  | ProblemType.NEUMANN =>
      configs_path wr1 wr2 dT_repr scheme ++ "/precice-adapter-config-N.json"

/-- `other_adapter_config_filename` per role (heat.py lines 127, 131): the
adapter-config path of the partner. -/
def other_adapter_config_filename (p : ProblemType) (wr1 wr2 : ℤ) (dT_repr scheme : String) :
    String :=
  match p with
  | ProblemType.DIRICHLET =>
      configs_path wr1 wr2 dT_repr scheme ++ "/precice-adapter-config-N.json"
  | ProblemType.NEUMANN =>
      configs_path wr1 wr2 dT_repr scheme ++ "/precice-adapter-config-D.json"

/-! ### Mesh construction (heat.py lines 124-125, 140-147) -/

/-- `nx` after the role branch: the Dirichlet branch executes `nx = nx*3`
(heat.py line 125). -/
def nxFor : ProblemType → ℕ
  | ProblemType.DIRICHLET => nx * 3
  | ProblemType.NEUMANN => nx

/-- Corner `p0` of the rectangle per role (heat.py lines 140-145). -/
def p0For : ProblemType → ℚ × ℚ
  | ProblemType.DIRICHLET => (x_left, y_bottom)
  | ProblemType.NEUMANN => (x_coupling, y_bottom)

/-- Corner `p1` of the rectangle per role (heat.py lines 140-145). -/
def p1For : ProblemType → ℚ × ℚ
  | ProblemType.DIRICHLET => (x_coupling, y_top)
  | ProblemType.NEUMANN => (x_right, y_top)

/-- The arguments of `RectangleMesh(p0, p1, nx, ny)` (heat.py line 147). -/
structure MeshSpec where
  p0 : ℚ × ℚ
  p1 : ℚ × ℚ
  nx : ℕ
  ny : ℕ
  deriving DecidableEq, Repr

/-- The mesh specification built for each role (heat.py lines 124-125,
140-147). -/
def meshSpecFor (p : ProblemType) : MeshSpec :=
  { p0 := p0For p, p1 := p1For p, nx := nxFor p, ny := ny }

/-- The startup sequence up to mesh construction (heat.py lines 100-147):
role validation runs first and an `Exception` there aborts the process, so
the mesh specification is only ever produced after a role was resolved. -/
def setup (dirichlet neumann : Bool) : Except String (ProblemType × MeshSpec) :=
  match resolveProblem dirichlet neumann with
  | Except.ok p => Except.ok (p, meshSpecFor p)
  | Except.error e => Except.error e

/-! ### Boundary expressions and interpolation (heat.py lines 151-162, 196) -/

/-- The `u_D` expression
`1 + gamma*t*x[0]*x[0] + (1-gamma)*x[0]*x[0] + alpha*x[1]*x[1] + beta*t`
(heat.py line 151), with its coefficient parameters explicit. -/
def u_D_expr (a b g t x y : ℚ) : ℚ :=
  1 + g*t*x*x + (1 - g)*x*x + a*y*y + b*t

/-- P1 (`FunctionSpace(mesh, P, 1)`) interpolation of a scalar expression:
the degree-of-freedom vector holds the value of the expression at each mesh node
(the FEniCS `interpolate(expr, V)` for a Lagrange-P1 space). -/
def interpolateP1 (e : ℚ → ℚ → ℚ) (nodes : List (ℚ × ℚ)) : List ℚ :=
  nodes.map fun pt => e pt.1 pt.2

/-- `u_n = interpolate(u_D, V)` at startup (heat.py line 162), with
`u_D.t = 0` still in force (line 151 constructs `u_D` with `t=0`). -/
def u_n_init (nodes : List (ℚ × ℚ)) : List ℚ :=
  interpolateP1 (u_D_expr alpha beta gamma 0) nodes

/-- `u_ref = interpolate(u_D, V)` at `t = 0` (heat.py line 196): the
reference field is interpolated from the same expression `u_D` onto the
same space `V` before `u_D.t` is first advanced (line 212). -/
def u_ref_init (nodes : List (ℚ × ℚ)) : List ℚ :=
  interpolateP1 (u_D_expr alpha beta gamma 0) nodes

/-- Modelled from the spec: `compute_errors(u, ref, V, total_error_tol)`
lives in the `errorcomputation` module, which is not under `src/`; spec
section 4.3 describes it as returning "a scalar aggregate error (e.g., an
L2-type norm) and a pointwise error field".  The pointwise field holds the
absolute nodal differences and the aggregate is the L2-type sum of their
squares. -/
def compute_errors (u ref : List ℚ) : ℚ × List ℚ :=
  let pointwise := (u.zip ref).map fun pr => |pr.1 - pr.2|
  ((pointwise.map fun e => e * e).sum, pointwise)

/-! ### Exchanged quantities per role (heat.py lines 167-172, 222-228) -/

/-- The concrete field handles the controller passes to the coupling
library: `u_D_function` (line 152), `f_N_function` (line 155), the solved
field `u_np1` (line 190), and `fluxes` as produced by
`fluxes_from_temperature_full_domain` (line 224). -/
inductive FieldHandle where
  | u_D_function
  | f_N_function
  | u_np1
  | fluxes
  deriving DecidableEq, Repr

/-- Physical kind of each handle, read off the source: `u_D` is the
temperature boundary expression (line 151) and `u_np1` the solved
temperature (renamed "Temperature", line 192); `f_N` is the normal-flux
expression (lines 153-154) and `fluxes` the flux-evaluator output
(line 224). -/
def quantityKind : FieldHandle → Bool
  | FieldHandle.u_D_function => true
  | FieldHandle.u_np1 => true
  | FieldHandle.f_N_function => false
  | FieldHandle.fluxes => false

/-- A handle is a temperature-kind field. -/
def isTemperature (h : FieldHandle) : Bool := quantityKind h

/-- A handle is a flux-kind field. -/
def isFlux (h : FieldHandle) : Bool := !(quantityKind h)

/-- The `read_field` argument of `precice.initialize` per role
(heat.py lines 167-172). -/
def init_read_field : ProblemType → FieldHandle
  | ProblemType.DIRICHLET => FieldHandle.u_D_function
  | ProblemType.NEUMANN => FieldHandle.f_N_function

/-- The `write_field` argument of `precice.initialize` per role
(heat.py lines 167-172). -/
def init_write_field : ProblemType → FieldHandle
  | ProblemType.DIRICHLET => FieldHandle.f_N_function
  | ProblemType.NEUMANN => FieldHandle.u_D_function

/-- The first (outgoing) argument of `precice.advance` per role
(heat.py lines 222-228): the Dirichlet branch first computes
`fluxes = fluxes_from_temperature_full_domain(F_known_u, V)` from the
freshly solved field and sends it; the Neumann branch sends `u_np1`
itself. -/
def advance_write_field : ProblemType → FieldHandle
  | ProblemType.DIRICHLET => FieldHandle.fluxes
  | ProblemType.NEUMANN => FieldHandle.u_np1

/-! ### Coupling window controller (heat.py lines 190-243)

The stepping loop `while precice.is_coupling_ongoing():` is embedded as a
fold of the loop body over an oracle trace: the external events of each iteration — the linear solve writing `u_np1` and the tuple returned by
`precice.advance` — are inputs, and the loop body is the sequence of assignments the source performs on the controller state. -/

/-- The tuple `(t, n, precice_timestep_complete, precice_dt)` returned by
`precice.advance` (heat.py lines 225, 228). -/
structure AdvanceResult where
  t : ℚ
  n : ℕ
  timestep_complete : Bool
  precice_dt : ℚ
  deriving DecidableEq, Repr

/-- The controller-owned mutable state of heat.py: simulation time `t`
(line 193), step index `n` (line 204), the FEniCS `Constant` `dt`, the
stored previous field `u_n` (line 162), the solved field `u_np1`
(line 190), the time parameters `u_D.t` and `f.t` of the boundary
expressions, and the number of output snapshots written so far (each
snapshot being the temperature/reference/error triple sent to
`temperature_out`, `ref_out`, `error_out`). -/
structure LoopState where
  t : ℚ
  n : ℕ
  dt : ℚ
  u_n : List ℚ
  u_np1 : List ℚ
  u_D_t : ℚ
  f_t : ℚ
  outputCount : ℕ
  deriving DecidableEq, Repr

/-- External events of one iteration: the solution the linear solve writes
into `u_np1` (line 220) and the `precice.advance` return value. -/
structure StepOracle where
  solved : List ℚ
  adv : AdvanceResult
  deriving DecidableEq, Repr

/-- One iteration of the stepping loop (heat.py lines 215-243):
`solve` writes `u_np1`; `t, n, precice_timestep_complete, precice_dt`
are rebound from `precice.advance`; `dt.assign(np.min([precice.fenics_dt,
precice_dt]))`; on `precice_timestep_complete` the reference is recomputed,
errors scored and one output triple written; finally `u_D.t` and `f.t` are
set to `t + dt(0)`.  `fenics_dt` is the local preferred step of the adapter
`precice.fenics_dt`. -/
def loopBody (fenics_dt : ℚ) (o : StepOracle) (s : LoopState) : LoopState :=
  let s1 := { s with u_np1 := o.solved }
  let s2 := { s1 with t := o.adv.t, n := o.adv.n }
  let dt2 := min fenics_dt o.adv.precice_dt
  let s3 := { s2 with dt := dt2 }
  let s4 :=
    if o.adv.timestep_complete then
      { s3 with outputCount := s3.outputCount + 1 }
    else
      s3
  { s4 with u_D_t := s4.t + dt2, f_t := s4.t + dt2 }

/-- The whole stepping loop as a fold over the oracle trace of its
iterations (one `StepOracle` per pass of `while
precice.is_coupling_ongoing():`). -/
def runLoop (fenics_dt : ℚ) (trace : List StepOracle) (s : LoopState) : LoopState :=
  trace.foldl (fun st o => loopBody fenics_dt o st) s

/-- The controller state right before the loop is entered
(heat.py lines 190-213): `t = 0`, `n = 0`, `dt` is the value returned by
`precice.initialize`, `u_n` the interpolated initial field, `u_np1` the
zero `Function(V)`, one output triple already written at `t=0, n=0`
(lines 205-209), and `u_D.t = f.t = t + dt(0)` (lines 212-213). -/
def initState (dt0 : ℚ) (u0 : List ℚ) : LoopState :=
  { t := 0
    n := 0
    dt := dt0
    u_n := u0
    u_np1 := u0.map fun _ => 0
    u_D_t := 0 + dt0
    f_t := 0 + dt0
    outputCount := 1 }

/-- Number of completed coupling windows in a trace: the advances whose
`precice_timestep_complete` flag is true. -/
def completedWindows (trace : List StepOracle) : ℕ :=
  (trace.filter fun o => o.adv.timestep_complete).length

/-! ## Theorems -/

/-- C5: `CouplingBoundary.inside(x, on_boundary)` is true iff `on_boundary`
holds, the first coordinate is within `1e-14` of `x_coupling`, and the
second coordinate is within `1e-14` of neither `y_bottom` nor `y_top`;
`ComplementaryBoundary.inside` is true iff `on_boundary` holds and
`CouplingBoundary.inside` is false; hence on every domain-boundary point
(`on_boundary = true`) exactly one of the two predicates holds — they
partition the boundary with no overlap and no gap. -/
theorem coupling_boundary_partition (x : ℚ × ℚ) (ob : Bool) :
    (couplingBoundary_inside x ob = true ↔
      ob = true ∧ |x.1 - x_coupling| ≤ geom_tol ∧
        ¬(|x.2 - y_bottom| ≤ geom_tol) ∧ ¬(|x.2 - y_top| ≤ geom_tol)) ∧
    (complementaryBoundary_inside x ob = true ↔
      ob = true ∧ couplingBoundary_inside x ob = false) ∧
    complementaryBoundary_inside x true = !(couplingBoundary_inside x true) ∧
    (couplingBoundary_inside x true = true ∨ complementaryBoundary_inside x true = true) ∧
    ¬(couplingBoundary_inside x true = true ∧ complementaryBoundary_inside x true = true) := by
  refine ⟨?_, ?_, ?_, ?_, ?_⟩
  · simp [couplingBoundary_inside, fenics_near, and_assoc]
  · simp [complementaryBoundary_inside]
  · simp [complementaryBoundary_inside]
  · cases hcb : couplingBoundary_inside x true with
    | true => exact Or.inl rfl
    | false => exact Or.inr (by simp [complementaryBoundary_inside, hcb])
  · rintro ⟨h1, h2⟩
    simp [complementaryBoundary_inside, h1] at h2

/-- C6: with both role flags set or neither set, startup raises a fatal
configuration `Exception` during role validation, so the subsequent mesh
construction (`RectangleMesh`, `FunctionSpace`) is never reached (`setup`
yields no `MeshSpec`); with exactly one flag set no error is raised and the
resolved role is the selected one. -/
theorem role_flag_validation :
    setup true true = Except.error
      "you can only choose either a dirichlet problem (option -d) or a neumann problem (option -n)" ∧
    setup false false = Except.error
      "you have to choose either a dirichlet problem (option -d) or a neumann problem (option -n)" ∧
    setup true false =
      Except.ok (ProblemType.DIRICHLET, meshSpecFor ProblemType.DIRICHLET) ∧
    setup false true =
      Except.ok (ProblemType.NEUMANN, meshSpecFor ProblemType.NEUMANN) :=
  ⟨rfl, rfl, rfl, rfl⟩

/-- C7: the adapter-config paths are built deterministically (they are pure
functions of the flag values) as
`experiments/WR<wr1><wr2>/dT<window>/<scheme>/precice-adapter-config-D.json`
(or the N-suffixed file),
the D-suffixed file being the own path of the Dirichlet role and the
N-suffixed file the own path of the Neumann role, the partner path of each
role being the own path of the other role. -/
theorem adapter_config_paths (wr1 wr2 : ℤ) (dT_repr scheme : String) :
    adapter_config_filename ProblemType.DIRICHLET wr1 wr2 dT_repr scheme =
      "experiments/WR" ++ toString wr1 ++ toString wr2 ++ "/dT" ++ dT_repr ++ "/"
        ++ scheme ++ "/precice-adapter-config-D.json" ∧
    adapter_config_filename ProblemType.NEUMANN wr1 wr2 dT_repr scheme =
      "experiments/WR" ++ toString wr1 ++ toString wr2 ++ "/dT" ++ dT_repr ++ "/"
        ++ scheme ++ "/precice-adapter-config-N.json" ∧
    other_adapter_config_filename ProblemType.DIRICHLET wr1 wr2 dT_repr scheme =
      adapter_config_filename ProblemType.NEUMANN wr1 wr2 dT_repr scheme ∧
    other_adapter_config_filename ProblemType.NEUMANN wr1 wr2 dT_repr scheme =
      adapter_config_filename ProblemType.DIRICHLET wr1 wr2 dT_repr scheme := by
  refine ⟨?_, ?_, rfl, rfl⟩ <;>
  · simp only [adapter_config_filename, configs_path, wr_tag, window_size_tag,
      String.append_assoc]
    rfl

/-- C10: the Dirichlet role meshes `[0, 1.5] × [0, 1]` with `30 × 10` cells
(`nx = 10*3`), the Neumann role meshes `[1.5, 2] × [0, 1]` with `10 × 10`
cells; the interface sits at `x_coupling = 1.5` (not at `x = 1` as the
module docstring says), so the two meshes share the y-resolution but differ
in x-resolution and domain width. -/
theorem mesh_geometry :
    meshSpecFor ProblemType.DIRICHLET =
      { p0 := (0, 0), p1 := (3/2, 1), nx := 30, ny := 10 } ∧
    meshSpecFor ProblemType.NEUMANN =
      { p0 := (3/2, 0), p1 := (2, 1), nx := 10, ny := 10 } ∧
    x_coupling = 3/2 ∧ x_coupling ≠ 1 ∧
    (meshSpecFor ProblemType.DIRICHLET).ny = (meshSpecFor ProblemType.NEUMANN).ny ∧
    (meshSpecFor ProblemType.DIRICHLET).nx ≠ (meshSpecFor ProblemType.NEUMANN).nx ∧
    (meshSpecFor ProblemType.DIRICHLET).p1.1 - (meshSpecFor ProblemType.DIRICHLET).p0.1 ≠
      (meshSpecFor ProblemType.NEUMANN).p1.1 - (meshSpecFor ProblemType.NEUMANN).p0.1 := by
  refine ⟨?_, ?_, rfl, by norm_num [x_coupling], rfl, by decide, by norm_num [meshSpecFor, p0For, p1For, x_left, x_right, x_coupling]⟩ <;>
    simp [meshSpecFor, p0For, p1For, nxFor, nx, ny, x_left, x_right, x_coupling,
      y_bottom, y_top]

/-- C3: after every `precice.advance` the loop body assigns
`dt := min(precice.fenics_dt, precice_dt)` — so the `dt` supplied to the
next solve never exceeds the negotiated `precice_dt` — and then sets the
boundary-expression times `u_D.t` and `f.t` to `t + dt` before the next
solve. -/
theorem dt_clamp_and_bc_time_update (fenics_dt : ℚ) (o : StepOracle) (s : LoopState) :
    (loopBody fenics_dt o s).dt = min fenics_dt o.adv.precice_dt ∧
    (loopBody fenics_dt o s).dt ≤ o.adv.precice_dt ∧
    (loopBody fenics_dt o s).u_D_t = o.adv.t + (loopBody fenics_dt o s).dt ∧
    (loopBody fenics_dt o s).f_t = o.adv.t + (loopBody fenics_dt o s).dt := by
  by_cases h : o.adv.timestep_complete <;>
    simp [loopBody, h, min_le_right]

/-- C4: the loop body never mutates the stored previous field `u_n`, and
the time `t` and step index `n` after an iteration are exactly the values
returned by `precice.advance`; consequently a rejected step retried at the
same `(t, n)` (the oracle returns the unchanged pair) leaves `t`, `n` and
`u_n` unchanged — retries are idempotent, with state mutated only on
acceptance. -/
theorem retry_frame_property (fenics_dt : ℚ) (o : StepOracle) (s : LoopState) :
    (loopBody fenics_dt o s).u_n = s.u_n ∧
    (loopBody fenics_dt o s).t = o.adv.t ∧
    (loopBody fenics_dt o s).n = o.adv.n ∧
    (o.adv.t = s.t → o.adv.n = s.n →
      (loopBody fenics_dt o s).t = s.t ∧ (loopBody fenics_dt o s).n = s.n ∧
        (loopBody fenics_dt o s).u_n = s.u_n) := by
  by_cases h : o.adv.timestep_complete <;>
    simp +contextual [loopBody, h]

/-- Witness for `retry_frame_property` at a concrete rejected step retried
at the same `(t, n) = (0, 0)`. -/
theorem retry_frame_property_witness :
    (loopBody 1 ⟨[], ⟨0, 0, false, 1⟩⟩ (initState 1 [])).t = (initState 1 []).t ∧
    (loopBody 1 ⟨[], ⟨0, 0, false, 1⟩⟩ (initState 1 [])).n = (initState 1 []).n ∧
    (loopBody 1 ⟨[], ⟨0, 0, false, 1⟩⟩ (initState 1 [])).u_n = (initState 1 []).u_n :=
  (retry_frame_property 1 ⟨[], ⟨0, 0, false, 1⟩⟩ (initState 1 [])).2.2.2 rfl rfl

/-- C8: the exchanged quantities are role-swapped: at `initialize` the
Dirichlet role reads the temperature handle `u_D_function` and writes the
flux handle `f_N_function` while the Neumann role does the reverse (each
read field of each role is the write field of the other); at `advance` the
outgoing argument of the Dirichlet role is the flux-evaluator output
`fluxes` and that of the Neumann role is the solved temperature field
`u_np1` itself. -/
theorem role_swapped_exchange :
    init_read_field ProblemType.DIRICHLET = FieldHandle.u_D_function ∧
    isTemperature (init_read_field ProblemType.DIRICHLET) = true ∧
    init_write_field ProblemType.DIRICHLET = FieldHandle.f_N_function ∧
    isFlux (init_write_field ProblemType.DIRICHLET) = true ∧
    isFlux (init_read_field ProblemType.NEUMANN) = true ∧
    isTemperature (init_write_field ProblemType.NEUMANN) = true ∧
    init_read_field ProblemType.NEUMANN = init_write_field ProblemType.DIRICHLET ∧
    init_write_field ProblemType.NEUMANN = init_read_field ProblemType.DIRICHLET ∧
    advance_write_field ProblemType.DIRICHLET = FieldHandle.fluxes ∧
    isFlux (advance_write_field ProblemType.DIRICHLET) = true ∧
    advance_write_field ProblemType.NEUMANN = FieldHandle.u_np1 ∧
    isTemperature (advance_write_field ProblemType.NEUMANN) = true := by
  decide

/-- C1 (counterexample): the total number of output writes does not equal
the number of completed coupling windows — heat.py lines 205-209 write one
output triple unconditionally at `t=0, n=0` before the loop, so a run with
a single non-complete exchange has written 1 output triple while 0 windows
completed. -/
theorem output_count_counterexample :
    (runLoop 1 [⟨[], ⟨1, 1, false, 1⟩⟩] (initState 1 [])).outputCount = 1 ∧
    completedWindows [⟨[], ⟨1, 1, false, 1⟩⟩] = 0 ∧
    (runLoop 1 [⟨[], ⟨1, 1, false, 1⟩⟩] (initState 1 [])).outputCount ≠
      completedWindows [⟨[], ⟨1, 1, false, 1⟩⟩] := by
  refine ⟨rfl, rfl, ?_⟩
  decide

/-- C1 (amended): inside the stepping loop, output triples are written
exactly on exchanges whose `precice_timestep_complete` flag is true (one
triple per completed window, none after a non-complete exchange), so the
loop adds exactly `completedWindows trace` writes; the total for the run is that
plus the single unconditional initial write at `t=0, n=0` made before the
loop, i.e. `1 + completedWindows trace`. -/
theorem outputs_only_on_window_complete (fenics_dt dt0 : ℚ) (trace : List StepOracle)
    (u0 : List ℚ) :
    (∀ (o : StepOracle) (s : LoopState),
      (loopBody fenics_dt o s).outputCount =
        s.outputCount + (if o.adv.timestep_complete then 1 else 0)) ∧
    (∀ s : LoopState,
      (runLoop fenics_dt trace s).outputCount = s.outputCount + completedWindows trace) ∧
    (runLoop fenics_dt trace (initState dt0 u0)).outputCount =
      1 + completedWindows trace := by
  have hbody : ∀ (o : StepOracle) (s : LoopState),
      (loopBody fenics_dt o s).outputCount =
        s.outputCount + (if o.adv.timestep_complete then 1 else 0) := by
    intro o s
    by_cases h : o.adv.timestep_complete <;> simp [loopBody, h]
  have hrun : ∀ (tr : List StepOracle) (s : LoopState),
      (runLoop fenics_dt tr s).outputCount = s.outputCount + completedWindows tr := by
    intro tr
    induction tr with
    | nil => intro s; simp [runLoop, completedWindows]
    | cons o rest ih =>
        intro s
        have hstep : runLoop fenics_dt (o :: rest) s =
            runLoop fenics_dt rest (loopBody fenics_dt o s) := rfl
        rw [hstep, ih, hbody]
        by_cases h : o.adv.timestep_complete <;>
          simp [completedWindows, List.filter, h, Nat.add_assoc, Nat.add_comm]
  exact ⟨hbody, hrun trace, by rw [hrun trace (initState dt0 u0)]; rfl⟩

/-- C9: with the fixed source parameters `alpha = 3`, `beta = 1.3`,
`gamma = 0`, the boundary expression `u_D` reduces to the analytic
`u = 1 + x^2 + 3 y^2 + 1.3 t`; the initial field `u_n` and the `t = 0`
reference `u_ref` are interpolations of this same expression onto the same
space, so they coincide and the aggregate error `compute_errors` reports
between them at `t = 0` is `0`, below the tolerance `1e-12`. -/
theorem initial_error_below_tolerance (nodes : List (ℚ × ℚ)) :
    (∀ t x y : ℚ, u_D_expr alpha beta gamma t x y = 1 + x*x + 3*(y*y) + (13/10)*t) ∧
    u_n_init nodes = u_ref_init nodes ∧
    (compute_errors (u_n_init nodes) (u_ref_init nodes)).1 = 0 ∧
    (compute_errors (u_n_init nodes) (u_ref_init nodes)).1 < error_tol := by
  have hself : ∀ l : List ℚ, (compute_errors l l).1 = 0 := by
    intro l
    induction l with
    | nil => rfl
    | cons a rest ih => simpa [compute_errors] using ih
  refine ⟨?_, rfl, hself _, ?_⟩
  · intro t x y
    simp [u_D_expr, alpha, beta, gamma]
    ring
  · rw [show u_ref_init nodes = u_n_init nodes from rfl, hself]
    norm_num [error_tol]

/-- Unfolding equation of `hasAssertFailure` on paired cons cells. -/
theorem hasAssertFailure_cons (f a : ℚ) (fs as_ : List ℚ) :
    hasAssertFailure (f :: fs) (a :: as_) =
      ((decide (a = 0) && decide (flux_assert_tol ≤ |f|)) || hasAssertFailure fs as_) :=
  rfl

/-- Unfolding equation of `flux_values` on paired cons cells. -/
theorem flux_values_cons (f a : ℚ) (fs as_ : List ℚ) :
    flux_values (f :: fs) (a :: as_) =
      (if a ≠ 0 then f / a else f) :: flux_values fs as_ :=
  rfl

/-- The flux loop either aborts at an offending index or returns the
pointwise scaled values. -/
theorem flux_loop_characterization (fv area : List ℚ) :
    flux_loop fv area =
      if hasAssertFailure fv area then Except.error "AssertionError"
      else Except.ok (flux_values fv area) := by
  induction fv generalizing area with
  | nil =>
      cases area <;> simp [flux_loop, hasAssertFailure, flux_values]
  | cons f fs ih =>
      cases area with
      | nil => simp [flux_loop, hasAssertFailure, flux_values]
      | cons a as_ =>
          rw [hasAssertFailure_cons, flux_values_cons]
          by_cases ha : a = 0
          · by_cases habs : |f| < flux_assert_tol
            · have hle : ¬ flux_assert_tol ≤ |f| := not_le.mpr habs
              by_cases hb : hasAssertFailure fs as_ = true
              all_goals simp [flux_loop, ha, habs, ih, hb, hle]
            · have hle : flux_assert_tol ≤ |f| := not_lt.mp habs
              simp [flux_loop, ha, habs, hle]
          · by_cases hb : hasAssertFailure fs as_ = true
            all_goals simp [flux_loop, ha, ih, hb]

/-- `hasAssertFailure` holds exactly when some index has zero boundary
measure and a raw residual at least `10**-10`. -/
theorem hasAssertFailure_iff (fv area : List ℚ) :
    hasAssertFailure fv area = true ↔
      ∃ i, ∃ hif : i < fv.length, ∃ hia : i < area.length,
        area.get ⟨i, hia⟩ = 0 ∧ flux_assert_tol ≤ |fv.get ⟨i, hif⟩| := by
  induction fv generalizing area with
  | nil =>
      cases area <;> simp [hasAssertFailure]
  | cons f fs ih =>
      cases area with
      | nil => simp [hasAssertFailure]
      | cons a as_ =>
          constructor
          · intro hb
            have hb2 : (a = 0 ∧ flux_assert_tol ≤ |f|) ∨ hasAssertFailure fs as_ = true := by
              simpa [hasAssertFailure, List.zip_cons_cons, List.any_cons,
                Bool.or_eq_true, Bool.and_eq_true] using hb
            rcases hb2 with ⟨ha, hle⟩ | htail
            · exact ⟨0, Nat.succ_pos _, Nat.succ_pos _, ha, hle⟩
            · obtain ⟨i, hif, hia, h1, h2⟩ := (ih as_).mp htail
              exact ⟨i + 1, Nat.succ_lt_succ hif, Nat.succ_lt_succ hia, h1, h2⟩
          · rintro ⟨i, hif, hia, h1, h2⟩
            cases i with
            | zero =>
                have ha : a = 0 := h1
                have hle : flux_assert_tol ≤ |f| := h2
                simp [hasAssertFailure, List.zip_cons_cons, List.any_cons, ha, hle]
            | succ j =>
                have htail : hasAssertFailure fs as_ = true :=
                  (ih as_).mpr ⟨j, Nat.lt_of_succ_lt_succ hif,
                    Nat.lt_of_succ_lt_succ hia, h1, h2⟩
                simp [hasAssertFailure, List.zip_cons_cons, List.any_cons] at htail ⊢
                exact Or.inr htail

/-- C2: `fluxes_from_temperature_full_domain` returns, at every index with
nonzero boundary measure, the assembled residual divided by that measure,
and passes the raw residual through unscaled where the measure is zero; it
aborts with the (fatal) assertion failure exactly when some zero-measure
index has an absolute raw residual not below `1e-10`. -/
theorem flux_division_and_assertion (fv area : List ℚ)
    (h : fv.length = area.length) :
    (∀ out, fluxes_from_temperature_full_domain fv area = Except.ok out →
      out.length = fv.length ∧
      ∀ i (hif : i < fv.length) (hia : i < area.length) (hio : i < out.length),
        (area.get ⟨i, hia⟩ ≠ 0 →
          out.get ⟨i, hio⟩ = fv.get ⟨i, hif⟩ / area.get ⟨i, hia⟩) ∧
        (area.get ⟨i, hia⟩ = 0 → out.get ⟨i, hio⟩ = fv.get ⟨i, hif⟩)) ∧
    ((∃ e, fluxes_from_temperature_full_domain fv area = Except.error e) ↔
      ∃ i, ∃ hif : i < fv.length, ∃ hia : i < area.length,
        area.get ⟨i, hia⟩ = 0 ∧ ¬(|fv.get ⟨i, hif⟩| < flux_assert_tol)) := by
  have hchar := flux_loop_characterization fv area
  constructor
  · intro out hout
    unfold fluxes_from_temperature_full_domain at hout
    rw [hchar] at hout
    by_cases hbad : hasAssertFailure fv area = true
    · simp [hbad] at hout
    · simp only [hbad, if_false, Bool.false_eq_true, Except.ok.injEq] at hout
      subst hout
      constructor
      · simp [flux_values, List.length_zip, h]
      · intro i hif hia hio
        constructor
        · intro hane
          simp only [List.get_eq_getElem] at hane
          simp [flux_values, List.get_eq_getElem, List.getElem_map, List.getElem_zip, hane]
        · intro haz
          simp only [List.get_eq_getElem] at haz
          simp [flux_values, List.get_eq_getElem, List.getElem_map, List.getElem_zip, haz]
  · unfold fluxes_from_temperature_full_domain
    rw [hchar]
    by_cases hbad : hasAssertFailure fv area = true
    · simp only [hbad, if_true]
      constructor
      · intro _
        obtain ⟨i, hif, hia, h1, h2⟩ := (hasAssertFailure_iff fv area).mp hbad
        exact ⟨i, hif, hia, h1, not_lt.mpr h2⟩
      · intro _
        exact ⟨"AssertionError", rfl⟩
    · simp only [hbad, Bool.false_eq_true, if_false]
      constructor
      · rintro ⟨e, he⟩
        simp at he
      · rintro ⟨i, hif, hia, h1, h2⟩
        exact absurd ((hasAssertFailure_iff fv area).mpr
          ⟨i, hif, hia, h1, not_lt.mp h2⟩) hbad

/-- Witness for `flux_division_and_assertion` at a concrete single-entry
residual and measure vector. -/
theorem flux_division_and_assertion_witness :
    ([(2 : ℚ)].length = [(1 : ℚ)].length) ∧
    ((∀ out, fluxes_from_temperature_full_domain [(2 : ℚ)] [(1 : ℚ)] = Except.ok out →
      out.length = [(2 : ℚ)].length ∧
      ∀ i (hif : i < [(2 : ℚ)].length) (hia : i < [(1 : ℚ)].length) (hio : i < out.length),
        (([(1 : ℚ)].get ⟨i, hia⟩) ≠ 0 →
          out.get ⟨i, hio⟩ = [(2 : ℚ)].get ⟨i, hif⟩ / [(1 : ℚ)].get ⟨i, hia⟩) ∧
        (([(1 : ℚ)].get ⟨i, hia⟩) = 0 → out.get ⟨i, hio⟩ = [(2 : ℚ)].get ⟨i, hif⟩)) ∧
    ((∃ e, fluxes_from_temperature_full_domain [(2 : ℚ)] [(1 : ℚ)] = Except.error e) ↔
      ∃ i, ∃ hif : i < [(2 : ℚ)].length, ∃ hia : i < [(1 : ℚ)].length,
        [(1 : ℚ)].get ⟨i, hia⟩ = 0 ∧ ¬(|[(2 : ℚ)].get ⟨i, hif⟩| < flux_assert_tol))) :=
  ⟨rfl, flux_division_and_assertion [(2 : ℚ)] [(1 : ℚ)] rfl⟩

end Heat
